import Mathlib

/-!
Shallow embedding of `src/security.txt/scripts/query.py`, the resumable
batch prober for security.txt files, together with theorems about its
resume logic, probing loop, field parser, validator and row rendering.

String-processing primitives of the Python runtime (str.splitlines,
str.lower, str.startswith, str.split(sep, 1), int(...)) are modelled
explicitly on character lists so that every definition evaluates inside
the kernel.
-/

set_option autoImplicit false

namespace SecurityTxt

/-- Constant `SCHEMA` of query.py line 15: the scheme prepended to every
domain read from the sites file. -/
def SCHEMA : String := "https://"

/-- Constant `REQUIRED_FIELDS` of query.py line 17. -/
def REQUIRED_FIELDS : List String := ["contact"]

/-- Constant `INTERESTING_FIELDS` of query.py lines 18-23: the required
fields followed by the optional captured fields, in declaration order. -/
def INTERESTING_FIELDS : List String :=
  REQUIRED_FIELDS ++ ["expires", "hiring", "policy", "acknowledgements"]

/-- Constant `SECURITY_DOT_TXT_PATHS` of query.py lines 24-27: the default
candidate paths, checked in this order. -/
def SECURITY_DOT_TXT_PATHS : List String :=
  ["/.well-known/security.txt", "/security.txt"]

/-- Helper for `splitlines`: accumulates the current line (in reverse) while
scanning the remaining characters. -/
def splitlinesAux : List Char → List Char → List (List Char)
  | acc, [] => if acc.isEmpty then [] else [acc.reverse]
  | acc, c :: cs =>
    if c = '\n' then acc.reverse :: splitlinesAux [] cs
    else splitlinesAux (c :: acc) cs

/-- Models Python `str.splitlines` (query.py line 114) for newline-separated
text: the body is cut at each `'\n'` and, as in Python, a trailing newline
does not produce a final empty line. Other Unicode line boundaries, which
the bodies this program handles do not use, are not modelled. -/
def splitlines (s : String) : List String :=
  (splitlinesAux [] s.data).map List.asString

/-- Models Python `str.startswith` with a single-character argument, as used
at query.py lines 108 and 115. -/
def startsWithChar (s : String) (c : Char) : Bool :=
  match s.data with
  | [] => false
  | d :: _ => d = c

/-- Models Python `str.lower` (query.py line 118) on the ASCII text this
program deals in: each character is lower-cased individually. -/
def lowerString (s : String) : String :=
  List.asString (s.data.map Char.toLower)

/-- Helper for `splitFirst`: finds the first occurrence of `sep` in the
character list, returning the characters before it and after it. -/
def splitFirstAux (sep : List Char) : List Char → Option (List Char × List Char)
  | [] => none
  | c :: cs =>
    if sep.isPrefixOf (c :: cs) then some ([], (c :: cs).drop sep.length)
    else
      match splitFirstAux sep cs with
      | some pq => some (c :: pq.1, pq.2)
      | none => none

/-- Models Python `str.split(sep, 1)` unpacked into exactly two variables
(query.py line 118): `none` when the separator does not occur (Python
raises ValueError at the unpacking, caught at line 119), otherwise the text
before the first occurrence and everything after it. -/
def splitFirst (sep s : String) : Option (String × String) :=
  (splitFirstAux sep.data s.data).map (fun pq => (pq.1.asString, pq.2.asString))

/-- Per-line step of the field parser, query.py lines 115-120: an empty
line or a comment line is skipped, otherwise the line is lower-cased and
split on the first occurrence of the separator colon-space; a line without
the separator is skipped silently. -/
def parseLine (line : String) : Option (String × String) :=
  if line.length = 0 || startsWithChar line '#' then none
  else splitFirst ": " (lowerString line)

/-- FieldMap: the `fields` dictionary of query.py line 113, modelled as an
association list in dict insertion order, each key mapped to its list of
values in append order. -/
abbrev FieldMap := List (String × List String)

/-- Models the dictionary update of query.py lines 121-123: a missing key
is created at the end (Python dicts preserve insertion order, new keys go
last) with a fresh list, and the value is appended to the key's list. -/
def addField : FieldMap → String → String → FieldMap
  | [], g, v => [(g, [v])]
  | e :: m, g, v =>
    if e.1 = g then (e.1, e.2 ++ [v]) :: m
    else e :: addField m g v

/-- One loop iteration of query.py lines 114-123 folded over a line. -/
def stepLine (m : FieldMap) (line : String) : FieldMap :=
  match parseLine line with
  | none => m
  | some fv => addField m fv.1 fv.2

/-- The field parser of query.py lines 113-123: fold the per-line step over
the body's lines starting from the empty dictionary. -/
def parseFields (body : String) : FieldMap :=
  (splitlines body).foldl stepLine []

/-- Lookup of a key in the field dictionary: the value list of the first
(and, for dictionaries built by `parseFields`, only) entry with that key. -/
def lookupField (f : String) (m : FieldMap) : Option (List String) :=
  (m.find? (fun p => p.1 == f)).map (fun p => p.2)

/-- Models the membership test `field.lower() in fields` of query.py
line 124. -/
def hasKey (m : FieldMap) (f : String) : Bool :=
  m.any (fun p => p.1 == f)

/-- The required-field validation of query.py line 124: every required
field name, lower-cased, must be a key of the parsed dictionary. -/
def validateFields (fields : FieldMap) : Bool :=
  REQUIRED_FIELDS.all (fun f => hasKey fields (lowerString f))

/-- Direct per-line reading of a field's values: the values of every line
that `parseLine` maps to this field name, in body line order. Used to state
what the accumulated dictionary contains. -/
def lineValues (f : String) (lines : List String) : List String :=
  ((lines.filterMap parseLine).filter (fun p => p.1 == f)).map (fun p => p.2)

/-- Values of a field read directly off the body's lines in order. -/
def valuesOf (f : String) (body : String) : List String :=
  lineValues f (splitlines body)

/-- Models `urllib.parse.urljoin` at query.py line 89 for the shapes this
program produces: the base is a scheme-and-host URL with no path of its
own and every candidate path is absolute (begins with a slash), so the
join is plain concatenation. -/
def urljoin (site path : String) : String := site ++ path

/-- Outcome of one HTTP GET as the loop of query.py lines 92-105 observes
it: either the request raised an exception (caught at line 94), or it
produced a status code and a body text. Redirect following and the timeout
happen inside the HTTP client and are absorbed into this abstraction. -/
inductive FetchResult where
  | err : FetchResult
  | resp (status : Nat) (body : String) : FetchResult
deriving DecidableEq

/-- Classification of one candidate-path attempt, mirroring the branch
structure of query.py lines 92-141. -/
inductive AttemptOutcome where
  | networkError : AttemptOutcome
  | nonOk (status : Nat) : AttemptOutcome
  | htmlLike : AttemptOutcome
  | parsedInvalid : AttemptOutcome
  | parsedValid (fields : FieldMap) : AttemptOutcome
deriving DecidableEq

/-- One iteration of the candidate-path loop, query.py lines 88-128: build
the URL, fetch it, skip on exception (line 94), skip on a non-200 status
(line 101), skip a body whose first character is a less-than sign
(line 108), otherwise parse the fields and check the required ones
(line 124). -/
def tryPath (env : String → FetchResult) (site path : String) : AttemptOutcome :=
  match env (urljoin site path) with
  | .err => .networkError
  | .resp status body =>
    if status ≠ 200 then .nonOk status
    else if startsWithChar body '<' then .htmlLike
    else if validateFields (parseFields body) then .parsedValid (parseFields body)
    else .parsedInvalid

/-- The candidate-path loop of query.py lines 86-141: paths are tried in
order and the loop breaks at the first attempt that parses and validates
(the `break` at line 141), yielding that attempt's URL and fields;
`none` when every path is exhausted (`has_securitytxt` stays False). -/
def probeDomain (env : String → FetchResult) (site : String) :
    List String → Option (String × FieldMap)
  | [] => none
  | p :: rest =>
    match tryPath env site p with
    | .parsedValid fields => some (urljoin site p, fields)
    | _ => probeDomain env site rest

/-- Models Python `" ".join` at query.py line 135. -/
def joinSpace : List String → String
  | [] => ""
  | [v] => v
  | v :: vs => v ++ " " ++ joinSpace vs

/-- The `output` dictionary of query.py lines 133-138: the parsed fields
restricted to the interesting ones, each value list joined with single
spaces into one cell. -/
def outputCells (fields : FieldMap) : List (String × String) :=
  (fields.filter (fun p => INTERESTING_FIELDS.contains p.1)).map
    (fun p => (p.1, joinSpace p.2))

/-- Rendering of one CSV data row by `writer.writerow` at query.py
line 139 under the DictWriter of lines 72-74: cells appear in the fixed
column order index, site, then the interesting fields; a field missing
from the row dictionary renders as the empty cell. -/
def renderRow (i : Nat) (site : String) (output : List (String × String)) :
    List String :=
  Nat.repr i :: site ::
    INTERESTING_FIELDS.map (fun f =>
      ((output.find? (fun p => p.1 == f)).map (fun p => p.2)).getD "")

/-- Rows appended to the output file while processing one domain, query.py
lines 83-141: the `writerow` call at line 139 sits inside the branch taken
only when a candidate path validated, so a domain contributes one row when
probing succeeds and no row at all otherwise. -/
def domainRows (env : String → FetchResult) (i : Nat) (domain : String)
    (paths : List String) : List (List String) :=
  match probeDomain env (SCHEMA ++ domain) paths with
  | some uf => [renderRow i (SCHEMA ++ domain) (outputCells uf.2)]
  | none => []

/-- Helper for `parsePyInt`: the value of a nonempty all-digit string. -/
def digitsVal : List Char → Nat → Option Nat
  | [], acc => some acc
  | c :: cs, acc =>
    if c.isDigit then digitsVal cs (acc * 10 + (c.toNat - 48))
    else none

/-- Models the Python `int(...)` conversion at query.py line 63 on the
decimal strings relevant here: an optional sign followed by one or more
digits; the surrounding whitespace and underscore grouping that `int` also
tolerates are not modelled. `none` models a raised ValueError. -/
def parsePyInt (s : String) : Option Int :=
  match s.data with
  | [] => none
  | '-' :: rest =>
    if rest.isEmpty then none
    else (digitsVal rest 0).map (fun n => -(n : Int))
  | '+' :: rest =>
    if rest.isEmpty then none
    else (digitsVal rest 0).map (fun n => (n : Int))
  | cs => (digitsVal cs 0).map (fun n => (n : Int))

/-- Decidable equality for `Except`, so that concrete runs of the model
can be checked by `decide`. -/
instance exceptDecEq {ε α : Type} [DecidableEq ε] [DecidableEq α] :
    DecidableEq (Except ε α)
  | .error e, .error f =>
    if h : e = f then .isTrue (by rw [h])
    else .isFalse (fun c => h (Except.error.inj c))
  | .error _, .ok _ => .isFalse Except.noConfusion
  | .ok _, .error _ => .isFalse Except.noConfusion
  | .ok a, .ok b =>
    if h : a = b then .isTrue (by rw [h])
    else .isFalse (fun c => h (Except.ok.inj c))

/-- Resume computation of query.py lines 56-64. The output file is
`none` when `out_path` does not exist (then `last_queried` keeps its
initial value 0); otherwise it is the list of data rows the csv DictReader
yields (header line excluded), each row listing its cells in column order
with the index cell first. An `Except.error` models an uncaught Python
exception, which aborts the process with a non-zero status: an existing
output with no data rows leaves `last_row` unassigned (UnboundLocalError
at line 63), and an index cell that `int` cannot parse raises ValueError
there. -/
def lastQueried (outFile : Option (List (List String))) : Except String Int :=
  match outFile with
  | none => .ok 0
  | some rows =>
    match rows.getLast? with
    | none => .error "UnboundLocalError"
    | some lastRow =>
      match parsePyInt (lastRow.headD "") with
      | none => .error "ValueError"
      | some k => .ok (k + 1)

/-- Rows appended by the main loop of query.py lines 78-152 given the
resume cursor: the loop enumerates the sites reader from index 0 and the
condition at line 79 skips every index less than or equal to
`last_queried`. -/
def emittedRows (env : String → FetchResult) (paths : List String)
    (domains : List String) (lastQ : Int) : List (List String) :=
  ((domains.enum.filter (fun p => decide (lastQ < (p.1 : Int)))).map
    (fun p => domainRows env p.1 p.2 paths)).flatten

/-- End-to-end model of `main` (query.py lines 45-152) restricted to its
observable output: the data rows of the output file after the run. The
file is opened in append mode, so an existing file keeps its rows and a
missing one starts empty (the header written at line 77 is not a data
row). An error during resume resolution aborts before the probing loop
starts, hence before `env` is ever consulted. -/
def runMain (env : String → FetchResult) (paths : List String)
    (domains : List String) (outFile : Option (List (List String))) :
    Except String (List (List String)) :=
  match lastQueried outFile with
  | .error e => .error e
  | .ok lastQ => .ok ((outFile.getD []) ++ emittedRows env paths domains lastQ)

/-! Helper lemmas about the field dictionary. -/

theorem lookupField_nil (f : String) : lookupField f [] = none := rfl

theorem lookupField_cons (e : String × List String) (m : FieldMap) (f : String) :
    lookupField f (e :: m) = if e.1 = f then some e.2 else lookupField f m := by
  by_cases h : e.1 = f <;> simp [lookupField, List.find?_cons, h]

theorem lookupField_addField (m : FieldMap) (g v f : String) :
    lookupField f (addField m g v) =
      if g = f then some ((lookupField f m).getD [] ++ [v])
      else lookupField f m := by
  induction m with
  | nil =>
    rw [show addField [] g v = [(g, [v])] from rfl, lookupField_cons, lookupField_nil]
    by_cases h : g = f
    · rw [if_pos h, if_pos h]
      rfl
    · rw [if_neg h, if_neg h]
  | cons e m ih =>
    rw [show addField (e :: m) g v =
          if e.1 = g then (e.1, e.2 ++ [v]) :: m else e :: addField m g v from rfl]
    by_cases h1 : e.1 = g
    · rw [if_pos h1, lookupField_cons, lookupField_cons]
      by_cases h2 : g = f
      · have he : e.1 = f := h1.trans h2
        rw [if_pos he, if_pos he, if_pos h2]
        rfl
      · have he : ¬e.1 = f := fun hh => h2 (h1.symm.trans hh)
        rw [if_neg he, if_neg he, if_neg h2]
    · rw [if_neg h1, lookupField_cons]
      by_cases h2 : e.1 = f
      · have hgf : ¬g = f := fun hh => h1 (h2.trans hh.symm)
        rw [if_pos h2, if_neg hgf, lookupField_cons, if_pos h2]
      · rw [if_neg h2, ih, lookupField_cons, if_neg h2]

theorem lineValues_nil (f : String) : lineValues f [] = [] := rfl

theorem lineValues_cons (f l : String) (ls : List String) :
    lineValues f (l :: ls) =
      match parseLine l with
      | none => lineValues f ls
      | some fv => if fv.1 = f then fv.2 :: lineValues f ls else lineValues f ls := by
  cases h : parseLine l with
  | none => simp [lineValues, List.filterMap_cons, h]
  | some fv =>
    by_cases hf : fv.1 = f <;>
      simp [lineValues, List.filterMap_cons, h, List.filter_cons, hf]

theorem lookupField_foldl_stepLine (lines : List String) :
    ∀ (m : FieldMap) (f : String),
      lookupField f (List.foldl stepLine m lines) =
        if lookupField f m = none ∧ lineValues f lines = [] then none
        else some ((lookupField f m).getD [] ++ lineValues f lines) := by
  induction lines with
  | nil =>
    intro m f
    cases h : lookupField f m <;> simp [lineValues_nil, h]
  | cons l ls ih =>
    intro m f
    cases hl : parseLine l with
    | none =>
      rw [List.foldl_cons, ih (stepLine m l) f, lineValues_cons, hl]
      simp [stepLine, hl]
    | some fv =>
      rw [List.foldl_cons, ih (stepLine m l) f, lineValues_cons, hl]
      simp only [stepLine, hl, lookupField_addField]
      by_cases hf : fv.1 = f
      · rw [if_pos hf, if_pos hf]
        simp [List.append_assoc]
      · rw [if_neg hf, if_neg hf]

theorem lookupField_parseFields (body f : String) :
    lookupField f (parseFields body) =
      if valuesOf f body = [] then none else some (valuesOf f body) := by
  have h := lookupField_foldl_stepLine (splitlines body) [] f
  simpa [parseFields, valuesOf, lookupField_nil] using h

theorem hasKey_eq_isSome (m : FieldMap) (f : String) :
    hasKey m f = (lookupField f m).isSome := by
  induction m with
  | nil => rfl
  | cons e m ih =>
    simp only [hasKey, List.any_cons, lookupField_cons] at ih ⊢
    by_cases h : e.1 = f
    · simp [h]
    · simp [h, ih]

/-! Helper lemmas about the candidate-path loop. -/

/-- The fields of an attempt when it validated, `none` otherwise. -/
def validFieldsOf : AttemptOutcome → Option FieldMap
  | .parsedValid fields => some fields
  | _ => none

theorem validFieldsOf_eq_some_iff (a : AttemptOutcome) (g : FieldMap) :
    validFieldsOf a = some g ↔ a = .parsedValid g := by
  cases a <;> simp [validFieldsOf]

theorem validFieldsOf_eq_none_iff (a : AttemptOutcome) :
    validFieldsOf a = none ↔ ∀ g, a ≠ .parsedValid g := by
  cases a <;> simp [validFieldsOf]

theorem probeDomain_cons (env : String → FetchResult) (site p : String)
    (rest : List String) :
    probeDomain env site (p :: rest) =
      match validFieldsOf (tryPath env site p) with
      | some fl => some (urljoin site p, fl)
      | none => probeDomain env site rest := by
  cases h : tryPath env site p <;> simp [probeDomain, h, validFieldsOf]

theorem probeDomain_eq_some_iff (env : String → FetchResult) (site : String) :
    ∀ (paths : List String) (u : String) (fl : FieldMap),
      probeDomain env site paths = some (u, fl) ↔
        ∃ pre p post, paths = pre ++ p :: post ∧
          (∀ q ∈ pre, ∀ g, tryPath env site q ≠ .parsedValid g) ∧
          tryPath env site p = .parsedValid fl ∧ u = urljoin site p := by
  intro paths
  induction paths with
  | nil =>
    intro u fl
    constructor
    · intro h
      exact absurd h (by simp [probeDomain])
    · rintro ⟨pre, p, post, h, -, -, -⟩
      exact absurd h (by cases pre <;> simp)
  | cons p0 rest ih =>
    intro u fl
    cases hv : validFieldsOf (tryPath env site p0) with
    | some g =>
      have hg := (validFieldsOf_eq_some_iff _ g).mp hv
      rw [probeDomain_cons]
      simp only [hv]
      constructor
      · intro h
        obtain ⟨hu, hfl⟩ := Prod.mk.injEq .. ▸ Option.some.inj h
        exact ⟨[], p0, rest, rfl, by simp, by rw [hg, hfl], hu.symm⟩
      · rintro ⟨pre, p, post, heq, hpre, hp, hu⟩
        cases pre with
        | nil =>
          obtain ⟨hp0, -⟩ := List.cons.injEq .. ▸ heq
          rw [hu, ← hp0]
          rw [← hp0, hg] at hp
          rw [AttemptOutcome.parsedValid.inj hp]
        | cons q pre' =>
          obtain ⟨hq, -⟩ := List.cons.injEq .. ▸ heq
          exact absurd hg (hq ▸ hpre q (by simp) g)
    | none =>
      have hnv := (validFieldsOf_eq_none_iff _).mp hv
      rw [probeDomain_cons]
      simp only [hv]
      rw [ih u fl]
      constructor
      · rintro ⟨pre, p, post, heq, hpre, hp, hu⟩
        refine ⟨p0 :: pre, p, post, by rw [heq]; rfl, ?_, hp, hu⟩
        intro q hq g
        rcases List.mem_cons.mp hq with hq0 | hqp
        · exact hq0 ▸ hnv g
        · exact hpre q hqp g
      · rintro ⟨pre, p, post, heq, hpre, hp, hu⟩
        cases pre with
        | nil =>
          obtain ⟨hp0, -⟩ := List.cons.injEq .. ▸ heq
          exact absurd hp (hp0 ▸ hnv fl)
        | cons q pre' =>
          obtain ⟨-, hrest⟩ := List.cons.injEq .. ▸ heq
          exact ⟨pre', p, post, hrest, fun r hr g => hpre r (by simp [hr]) g, hp, hu⟩

/-! Helper lemmas about row rendering and the main loop. -/

theorem outputCells_cons_keep (e : String × List String) (m : FieldMap)
    (h : INTERESTING_FIELDS.contains e.1 = true) :
    outputCells (e :: m) = (e.1, joinSpace e.2) :: outputCells m := by
  have h' : e.1 ∈ INTERESTING_FIELDS := by simpa using h
  simp [outputCells, List.filter_cons, h']

theorem outputCells_cons_drop (e : String × List String) (m : FieldMap)
    (h : INTERESTING_FIELDS.contains e.1 = false) :
    outputCells (e :: m) = outputCells m := by
  have h' : ¬e.1 ∈ INTERESTING_FIELDS := by simpa using h
  simp [outputCells, List.filter_cons, h']

theorem find?_outputCells (fields : FieldMap) (f : String)
    (hf : INTERESTING_FIELDS.contains f = true) :
    (outputCells fields).find? (fun p => p.1 == f) =
      (fields.find? (fun p => p.1 == f)).map (fun p => (p.1, joinSpace p.2)) := by
  induction fields with
  | nil => rfl
  | cons e m ih =>
    by_cases h : e.1 = f
    · rw [outputCells_cons_keep e m (h ▸ hf),
        List.find?_cons_of_pos (p := fun q : String × String => q.1 == f) _
          (by simpa using h),
        List.find?_cons_of_pos (p := fun q : String × List String => q.1 == f) _
          (by simpa using h)]
      rfl
    · have hne : ¬((e.1 == f) = true) := by simpa using h
      cases hkeep : INTERESTING_FIELDS.contains e.1
      · rw [outputCells_cons_drop e m hkeep, ih,
          List.find?_cons_of_neg (p := fun q : String × List String => q.1 == f) _ hne]
      · rw [outputCells_cons_keep e m hkeep,
          List.find?_cons_of_neg (p := fun q : String × String => q.1 == f) _ hne,
          List.find?_cons_of_neg (p := fun q : String × List String => q.1 == f) _ hne,
          ih]

theorem renderRow_outputCells (fields : FieldMap) (i : Nat) (site : String) :
    renderRow i site (outputCells fields) =
      Nat.repr i :: site ::
        INTERESTING_FIELDS.map
          (fun f => ((lookupField f fields).map joinSpace).getD "") := by
  simp only [renderRow, List.cons.injEq, true_and]
  refine List.map_congr_left (fun f hf => ?_)
  have hcont : INTERESTING_FIELDS.contains f = true := by simpa using hf
  rw [find?_outputCells fields f hcont]
  cases hfind : fields.find? (fun p => p.1 == f) <;> simp [lookupField, hfind]

theorem mem_emittedRows {env : String → FetchResult} {paths domains : List String}
    {lastQ : Int} {r : List String} (h : r ∈ emittedRows env paths domains lastQ) :
    ∃ i : Nat, lastQ < (i : Int) ∧ r.headD "" = Nat.repr i := by
  simp only [emittedRows, List.mem_flatten, List.mem_map, List.mem_filter] at h
  obtain ⟨rows, ⟨p, ⟨hpmem, hplt⟩, rfl⟩, hr⟩ := h
  refine ⟨p.1, of_decide_eq_true hplt, ?_⟩
  unfold domainRows at hr
  cases hpb : probeDomain env (SCHEMA ++ p.2) paths <;> rw [hpb] at hr
  · simp at hr
  · rw [List.mem_singleton.mp hr]
    rfl

/-! Claim theorems. -/

/-- Claim C1, counterexample: the claim says a domain whose candidate paths are
all exhausted is still emitted as one row, but for a domain where every path
returns a 404 the loop body of query.py lines 88-141 never reaches the
writerow call at line 139, so zero rows are appended. -/
theorem claim1_counterexample :
    (domainRows (fun _ => FetchResult.resp 404 "") 0 "example.com"
      SECURITY_DOT_TXT_PATHS).length ≠ 1 := by decide

/-- Claim C1 (amended): a processed domain appends exactly one output row when
some candidate path validated, and no row at all when every candidate path is
exhausted without a validated match. -/
theorem claim1_one_row_iff_found (env : String → FetchResult) (i : Nat)
    (domain : String) (paths : List String) :
    (domainRows env i domain paths).length =
      if (probeDomain env (SCHEMA ++ domain) paths).isSome then 1 else 0 := by
  unfold domainRows
  cases h : probeDomain env (SCHEMA ++ domain) paths <;> simp [h]

/-- Claim C2, counterexample: with three domains that all serve a valid body, an
uninterrupted fresh run writes the rows for indices 1 and 2 (index 0 is skipped
by the condition at query.py line 79, since last_queried starts at 0). Resuming
after the first emitted row (index 1) sets last_queried to 2 and the loop skips
every index up to and including 2, so the resumed run appends nothing: the
concatenated output is missing the row for index 2 and is not row-for-row
identical to the uninterrupted run. -/
theorem claim2_counterexample :
    runMain (fun _ => FetchResult.resp 200 "contact: x") SECURITY_DOT_TXT_PATHS
        ["a.com", "b.com", "c.com"]
        (some [["1", "https://b.com", "x", "", "", "", ""]]) ≠
      runMain (fun _ => FetchResult.resp 200 "contact: x") SECURITY_DOT_TXT_PATHS
        ["a.com", "b.com", "c.com"] none := by decide

/-- Claim C2 (amended): resuming never duplicates an index already recorded.
Every row of the resumed run's output file is either a pre-existing row (the
file is opened in append mode) or a freshly appended row whose index strictly
exceeds the resume cursor, which is one more than the last recorded index; the
concatenated output is, however, not guaranteed identical to an uninterrupted
run, because the domain at cursor position is skipped as well and not-found
domains contribute no rows. -/
theorem claim2_resume_fresh_indices (env : String → FetchResult)
    (paths domains : List String) (rows out : List (List String)) (k : Int)
    (hlast : lastQueried (some rows) = .ok k)
    (hrun : runMain env paths domains (some rows) = .ok out)
    (r : List String) (hr : r ∈ out) :
    r ∈ rows ∨ ∃ i : Nat, k < (i : Int) ∧ r.headD "" = Nat.repr i := by
  unfold runMain at hrun
  rw [hlast] at hrun
  rw [← Except.ok.inj hrun] at hr
  rcases List.mem_append.mp hr with hold | hnew
  · exact Or.inl hold
  · exact Or.inr (mem_emittedRows hnew)

/-- Claim C2 witness: a concrete resumed run in which the appended row for
index 3 indeed carries an index beyond the resume cursor 2. -/
theorem claim2_witness :
    (["3", "https://d.com", "x", "", "", "", ""] ∈
        [["1", "https://b.com", "x", "", "", "", ""]]) ∨
      ∃ i : Nat, (2 : Int) < (i : Int) ∧
        (["3", "https://d.com", "x", "", "", "", ""] : List String).headD "" =
          Nat.repr i :=
  claim2_resume_fresh_indices (fun _ => FetchResult.resp 200 "contact: x")
    SECURITY_DOT_TXT_PATHS ["a.com", "b.com", "c.com", "d.com", "e.com"]
    [["1", "https://b.com", "x", "", "", "", ""]]
    [["1", "https://b.com", "x", "", "", "", ""],
     ["3", "https://d.com", "x", "", "", "", ""],
     ["4", "https://e.com", "x", "", "", "", ""]]
    2 (by decide) (by decide) ["3", "https://d.com", "x", "", "", "", ""] (by decide)

/-- Claim C3, counterexample: the claim says an existing but empty output file
resolves the next index to 0, but reading an existing output with no data rows
leaves last_row unassigned at query.py line 63, so the run crashes instead. -/
theorem claim3_counterexample : lastQueried (some []) ≠ Except.ok 0 := by decide

/-- Claim C3 (amended): if the output file does not exist the resume cursor
is 0; if it exists but yields no data rows the run aborts with an
UnboundLocalError; otherwise, when the last row's index cell parses as the
integer k, the resume cursor is k + 1. -/
theorem claim3_resume_resolution :
    lastQueried none = .ok 0 ∧
    lastQueried (some []) = .error "UnboundLocalError" ∧
    (∀ (rows : List (List String)) (row : List String) (k : Int),
      rows.getLast? = some row → parsePyInt (row.headD "") = some k →
      lastQueried (some rows) = .ok (k + 1)) := by
  refine ⟨rfl, rfl, ?_⟩
  intro rows row k h1 h2
  simp only [lastQueried, h1, h2]

/-- Claim C3 witness: a concrete output file whose last row has index 4
resolves the resume cursor to 5. -/
theorem claim3_witness :
    lastQueried (some [["0", "https://a.com", "x", "", "", "", ""],
      ["4", "https://e.com", "x", "", "", "", ""]]) = .ok 5 :=
  claim3_resume_resolution.2.2
    [["0", "https://a.com", "x", "", "", "", ""],
     ["4", "https://e.com", "x", "", "", "", ""]]
    ["4", "https://e.com", "x", "", "", "", ""] 4 (by decide) (by decide)

/-- Claim C4: when the output file exists and its last row's index cell is not
parseable as an integer, the run aborts with an error — and it does so for
every network environment alike, i.e. before any domain is probed and before
any request is made. -/
theorem claim4_corrupt_resume_aborts (env : String → FetchResult)
    (paths domains : List String) (rows : List (List String))
    (row : List String) (hlast : rows.getLast? = some row)
    (hbad : parsePyInt (row.headD "") = none) :
    runMain env paths domains (some rows) = .error "ValueError" := by
  simp only [runMain, lastQueried, hlast, hbad]

/-- Claim C4 witness: an output file whose last row's index cell is the string
abc aborts the run, with the network environment failing every request never
being consulted. -/
theorem claim4_witness :
    runMain (fun _ => FetchResult.err) SECURITY_DOT_TXT_PATHS ["a.com"]
      (some [["abc", "https://a.com", "x", "", "", "", ""]]) =
    .error "ValueError" :=
  claim4_corrupt_resume_aborts (fun _ => FetchResult.err) SECURITY_DOT_TXT_PATHS
    ["a.com"] [["abc", "https://a.com", "x", "", "", "", ""]]
    ["abc", "https://a.com", "x", "", "", "", ""] (by decide) (by decide)

/-- Claim C5: probing returns a result exactly when some candidate path, after
all earlier paths failed to validate, parses and validates, and the result
records that path's URL — so paths are tried in the given order and probing
stops at the first validated path. Concretely, for a domain whose well-known
path returns a 404 while the root path serves a valid file, the domain is
found with the matched URL pointing at the root path. -/
theorem claim5_first_valid_path :
    (∀ (env : String → FetchResult) (site : String) (paths : List String)
        (u : String) (fl : FieldMap),
      probeDomain env site paths = some (u, fl) ↔
        ∃ pre p post, paths = pre ++ p :: post ∧
          (∀ q ∈ pre, ∀ g, tryPath env site q ≠ .parsedValid g) ∧
          tryPath env site p = .parsedValid fl ∧ u = urljoin site p) ∧
    probeDomain
        (fun u =>
          if u = "https://example.com/.well-known/security.txt" then
            FetchResult.resp 404 "not found"
          else if u = "https://example.com/security.txt" then
            FetchResult.resp 200 "Contact: mailto:x@y.com"
          else FetchResult.err)
        "https://example.com" SECURITY_DOT_TXT_PATHS =
      some ("https://example.com/security.txt", [("contact", ["mailto:x@y.com"])]) :=
  ⟨fun env site paths u fl => probeDomain_eq_some_iff env site paths u fl,
    by decide⟩

/-- Claim C6: the field parser is total by construction, and for every body
and field name the parsed dictionary holds exactly the values of the lines
that survive the skip rules (nonempty, not a comment, separator present) and
name that field, in body line order; concretely a malformed line, a comment
and an empty line are skipped while value order follows line order. -/
theorem claim6_parse_total_ordered :
    (∀ body f : String,
      lookupField f (parseFields body) =
        if valuesOf f body = [] then none else some (valuesOf f body)) ∧
    lookupField "contact"
        (parseFields "Contact: B\n# comment\n\nmalformed\nContact: A") =
      some ["b", "a"] :=
  ⟨lookupField_parseFields, by decide⟩

/-- Claim C7: validation accepts a parsed body exactly when every required
field name is present as a key with at least one value; with required set
containing only contact, a body with only an Expires line is rejected and a
Contact line is accepted in any letter case. -/
theorem claim7_validation_iff :
    (∀ body : String,
      validateFields (parseFields body) = true ↔
        ∀ f ∈ REQUIRED_FIELDS, ∃ v vs,
          lookupField (lowerString f) (parseFields body) = some (v :: vs)) ∧
    validateFields (parseFields "Expires: 2025-01-01") = false ∧
    validateFields (parseFields "Contact: mailto:x@y.com") = true ∧
    validateFields (parseFields "CONTACT: mailto:x@y.com") = true ∧
    validateFields (parseFields "cOnTaCt: mailto:x@y.com") = true := by
  refine ⟨?_, by decide, by decide, by decide, by decide⟩
  intro body
  unfold validateFields
  rw [List.all_eq_true]
  constructor
  · intro h f hf
    have hk := h f hf
    rw [hasKey_eq_isSome] at hk
    obtain ⟨vs, hvs⟩ := Option.isSome_iff_exists.mp hk
    have hp := lookupField_parseFields body (lowerString f)
    rw [hvs] at hp
    by_cases hv : valuesOf (lowerString f) body = []
    · rw [if_pos hv] at hp
      exact absurd hp (by simp)
    · rw [if_neg hv] at hp
      cases vs with
      | nil => exact absurd (Option.some.inj hp).symm hv
      | cons v vs' => exact ⟨v, vs', hvs⟩
  · intro h f hf
    obtain ⟨v, vs, hvs⟩ := h f hf
    rw [hasKey_eq_isSome, hvs]
    rfl

/-- Claim C8: a 200 response whose body starts with a less-than character is
classified html-like without the parser or validator being consulted, and the
probing loop moves on to the remaining candidate paths. -/
theorem claim8_html_sniff (env : String → FetchResult) (site path : String)
    (rest : List String) (body : String)
    (hresp : env (urljoin site path) = FetchResult.resp 200 body)
    (hlt : startsWithChar body '<' = true) :
    tryPath env site path = .htmlLike ∧
    probeDomain env site (path :: rest) = probeDomain env site rest := by
  have h1 : tryPath env site path = .htmlLike := by
    unfold tryPath
    rw [hresp]
    simp [hlt]
  refine ⟨h1, ?_⟩
  rw [probeDomain_cons, h1]
  rfl

/-- Claim C8 witness: a body beginning with an html tag that would otherwise
parse and validate is nevertheless rejected as html-like and the next
candidate path is tried. -/
theorem claim8_witness :
    validateFields (parseFields "<html>\ncontact: mailto:x@y.com") = true ∧
    tryPath (fun _ => FetchResult.resp 200 "<html>\ncontact: mailto:x@y.com")
        "https://example.com" "/security.txt" = .htmlLike ∧
    probeDomain (fun _ => FetchResult.resp 200 "<html>\ncontact: mailto:x@y.com")
        "https://example.com" ["/security.txt"] =
      probeDomain (fun _ => FetchResult.resp 200 "<html>\ncontact: mailto:x@y.com")
        "https://example.com" [] :=
  ⟨by decide,
    claim8_html_sniff (fun _ => FetchResult.resp 200 "<html>\ncontact: mailto:x@y.com")
      "https://example.com" "/security.txt" [] "<html>\ncontact: mailto:x@y.com"
      rfl (by decide)⟩

/-- Claim C9: in an emitted row the cells appear in the fixed column order
and each interesting field present in the field map has its values joined by
single spaces in body line order, while an absent field leaves its cell
empty; concretely two Contact lines produce one space-joined contact cell. -/
theorem claim9_row_rendering :
    (∀ (fields : FieldMap) (i : Nat) (site : String),
      renderRow i site (outputCells fields) =
        Nat.repr i :: site ::
          INTERESTING_FIELDS.map
            (fun f => ((lookupField f fields).map joinSpace).getD "")) ∧
    renderRow 7 "https://x.com"
        (outputCells
          (parseFields "Contact: mailto:a@x.com\nContact: mailto:b@x.com")) =
      ["7", "https://x.com", "mailto:a@x.com mailto:b@x.com", "", "", "", ""] :=
  ⟨fun fields i site => renderRow_outputCells fields i site, by decide⟩

/-- Claim C10: every key present in the dictionary built by the field parser
carries a non-empty list of values, which is what makes checking required
fields by key membership alone sound. -/
theorem claim10_values_nonempty (body f : String) (vs : List String)
    (h : lookupField f (parseFields body) = some vs) : vs ≠ [] := by
  have hp := lookupField_parseFields body f
  rw [h] at hp
  by_cases hv : valuesOf f body = []
  · rw [if_pos hv] at hp
    exact absurd hp (by simp)
  · rw [if_neg hv] at hp
    rw [Option.some.inj hp]
    exact hv

/-- Claim C10 witness: the contact key of a concrete parsed body indeed has a
non-empty value list. -/
theorem claim10_witness : (["mailto:x@y.com"] : List String) ≠ [] :=
  claim10_values_nonempty "Contact: mailto:x@y.com" "contact"
    ["mailto:x@y.com"] (by decide)

end SecurityTxt
